import Mathlib

/-!
Verification development for the iterative DNS resolver (`resolver.py`).

The embedding translates `resolver.py` directly.  The repository's
`helpers.py` module (name codec, record/response data types, query builder,
root-server list) is not part of the sources; those definitions are modelled
from the specification and are marked `Modelled from the spec:` in their doc
comments.  Byte buffers are `List Nat` (each entry one octet); Python
exceptions that can escape a function are modelled with `Except PyExc`;
Python `random.randrange` is modelled as a function of an explicit entropy
argument.
-/

namespace DNSResolver

/-- Python exceptions that can cross function boundaries in the embedded
fragment: `struct.error` from `struct.unpack` on a wrongly sized buffer,
`MalformedName` from the name decoder, and the interpreter's
`RecursionError` (which models exhausting the fuel of the recursive
`resolve`). -/
inductive PyExc where
  | structError
  | malformedName
  | recursionLimit
deriving DecidableEq, Repr

/-- Python slice `b[lo:hi]`: clamps both ends to the buffer, never fails. -/
def py_slice (b : List Nat) (lo hi : Nat) : List Nat :=
  (b.take hi).drop lo

/-- Big-endian 16-bit read at offset `i`, as produced by `struct.unpack("!H")`
on `b[i:i+2]` (callers check the length before relying on the value). -/
def get16 (b : List Nat) (i : Nat) : Nat :=
  256 * b.getD i 0 + b.getD (i + 1) 0

/-- Split a character list at dots, Python `str.split(".")` semantics
(`"".split(".") == [""]`). -/
def splitDotsAux : List Char → List (List Char)
  | [] => [[]]
  | c :: rest =>
    let r := splitDotsAux rest
    if c = '.' then [] :: r
    else
      match r with
      | [] => [[c]]
      | h :: t => (c :: h) :: t

/-- Dot-split of a hostname into labels. -/
def splitDots (s : String) : List String :=
  (splitDotsAux s.data).map String.mk

/-- Join labels with dots (inverse direction of `splitDots`). -/
def joinDots : List String → String
  | [] => ""
  | [s] => s
  | s :: rest => s ++ "." ++ joinDots rest

/-- Modelled from the spec: record type tag with the wire-level integer
assignments `A=1`, `NS=2`, `CNAME=5`, `SOA=6`, `MX=15`, `AAAA=28`; unknown
codes are preserved as an opaque numeric variant (`helpers.py` is not in the
sources). -/
inductive DNSRecordType where
  | A
  | NS
  | CNAME
  | SOA
  | MX
  | AAAA
  | unknown (code : Nat)
deriving DecidableEq, Repr

/-- The enum member for a wire-level type code (`DNSRecordType(n)`). -/
def DNSRecordType.ofNat (n : Nat) : DNSRecordType :=
  if n = 1 then .A
  else if n = 2 then .NS
  else if n = 5 then .CNAME
  else if n = 6 then .SOA
  else if n = 15 then .MX
  else if n = 28 then .AAAA
  else .unknown n

/-- The wire-level code of a record type tag. -/
def DNSRecordType.code : DNSRecordType → Nat
  | .A => 1
  | .NS => 2
  | .CNAME => 5
  | .SOA => 6
  | .MX => 15
  | .AAAA => 28
  | .unknown n => n

/-- Modelled from the spec: a record's `value` is either a list of octet
integers (`A`, `AAAA`) or a string (names, and the placeholder strings). -/
inductive DNSValue where
  | ints (l : List Nat)
  | str (s : String)
deriving DecidableEq, Repr

/-- Modelled from the spec: an immutable record with owner name, type tag
and value (`helpers.py` is not in the sources). -/
structure DNSRecord where
  name : String
  type : DNSRecordType
  value : DNSValue
deriving DecidableEq, Repr

/-- Modelled from the spec: `value_string()` renders `A` as dotted decimal,
`AAAA` as a byte-join, and everything else as the stored string. -/
def value_string (r : DNSRecord) : String :=
  match r.value with
  | .str s => s
  | .ints l => joinDots (l.map (fun n => toString n))

/-- Python `str(value)`: a string is itself; a list renders as
`[a, b, ...]` (only ever applied to name-valued records in practice). -/
def py_str (v : DNSValue) : String :=
  match v with
  | .str s => s
  | .ints l => "[" ++ joinDots (l.map (fun n => toString n)) ++ "]"

/-- Modelled from the spec: a parsed response with the echoed question and
the three ordered record sections (`helpers.py` is not in the sources). -/
structure DNSResponse where
  query_name : String
  query_type : DNSRecordType
  answers : List DNSRecord
  authorities : List DNSRecord
  additional : List DNSRecord
deriving DecidableEq, Repr

/-- Modelled from the spec: `get_answer(name, type)` returns the first record
in `answers` whose owner name and type both match, or nothing. -/
def DNSResponse.get_answer (resp : DNSResponse) (name : String)
    (t : DNSRecordType) : Option DNSRecord :=
  resp.answers.find? (fun r => r.name == name && r.type == t)

/-- Modelled from the spec (§4.1), `helpers.py` is not in the sources:
label-sequence decoder worker.  Reads labels at offset `i`; a length octet
with high bits `00` introduces a label, `11` a two-octet back-pointer
(rejected when the target is not below the message length or when more than
`jumps` jumps remain to be taken), anything else is malformed.  `ret`
remembers the cursor just past the first pointer; `fuel` is a structural
termination device, always instantiated large enough that it never runs
out on inputs the jump budget admits. -/
def nameGo (b : List Nat) : Nat → Nat → Nat → Option Nat → List String →
    Option (String × Nat)
  | 0, _, _, _, _ => none
  | fuel + 1, i, jumps, ret, acc =>
    match b[i]? with
    | none => none
    | some len =>
      if len = 0 then
        some (joinDots acc, ret.getD (i + 1))
      else if len < 64 then
        if i + 1 + len ≤ b.length then
          let label := String.mk (((b.drop (i + 1)).take len).map Char.ofNat)
          nameGo b fuel (i + 1 + len) jumps ret (acc ++ [label])
        else none
      else if 192 ≤ len then
        match b[i + 1]? with
        | none => none
        | some lo =>
          let ptr := (len - 192) * 256 + lo
          if ptr < b.length ∧ 0 < jumps then
            nameGo b fuel ptr (jumps - 1) (some (ret.getD (i + 2))) acc
          else none
      else none

/-- Modelled from the spec (§4.1): decode a (possibly pointer-compressed)
name starting at `start`, returning the dotted name and the cursor past the
reference; at most 128 jumps; `none` models the `MalformedName` failure. -/
def decode_dns_name (b : List Nat) (start : Nat) : Option (String × Nat) :=
  nameGo b (129 * (b.length + 1) + 1) start 128 none []

/-- Modelled from the spec (§4.1): encode a dotted hostname as a
length-prefixed label sequence with a zero terminator (the empty hostname
encodes to the single zero octet). -/
def encode_dns_name (hostname : String) : List Nat :=
  let labels := if hostname = "" then [] else splitDots hostname
  (labels.flatMap (fun l => l.length :: l.data.map Char.toNat)) ++ [0]

/-- Modelled from the spec (§4.4): fixed-format query with the
caller-supplied id, flags `0x0100`, `qdcount = 1`, the encoded question and
`qclass = 1` (`helpers.py` is not in the sources). -/
def construct_query (query_id : Nat) (hostname : String)
    (qtype : DNSRecordType) : List Nat :=
  [query_id / 256 % 256, query_id % 256, 1, 0, 0, 1, 0, 0, 0, 0, 0, 0]
    ++ encode_dns_name hostname
    ++ [qtype.code / 256 % 256, qtype.code % 256, 0, 1]

/-- Modelled from the spec (§6): the static bootstrap list of root-server
addresses; the resolver is oblivious to its contents. -/
def get_root_servers : List String := ["198.41.0.4", "199.9.14.201"]

/-- Modelled from the spec (§6): `effective_tld(hostname)`, the TLD
extraction used by the response classifier (the source uses the external
`tldextract` collaborator; this approximation reports a suffix exactly when
the name has at least two dot-separated parts and a nonempty last part). -/
def effective_tld (hostname : String) : Option String :=
  let parts := splitDots hostname
  match parts.reverse with
  | last :: _ :: _ => if last = "" then none else some last
  | _ => none

/-- Model of Python `random.randrange(lo, hi)` (with `lo < hi`): the entropy
argument `r` selects which element of `[lo, hi)` is produced; every element
of that interval, and nothing else, is a possible outcome. -/
def randrange (lo hi r : Nat) : Nat :=
  lo + r % (hi - lo)

/-- The sentinel produced by `parse_record` when any decoding error occurs:
`DNSRecord("error", DNSRecordType(0), "Parse error")` (`resolver.py`
line 81). -/
def sentinel_record : DNSRecord :=
  ⟨"error", DNSRecordType.ofNat 0, .str "Parse error"⟩

/-- `parse_record` (`resolver.py` lines 19-82).  Decodes one resource record
at `start_index` and returns it with the index just past it.  The whole body
is wrapped in `try/except`; any failure (undecodable name, a `struct.unpack`
on a slice of the wrong size) yields the sentinel record with the cursor
unchanged.  Python `struct.unpack` demands an exactly sized slice, hence the
explicit slice-length conditions; the `AAAA` branch slices without
unpacking, so it clamps instead of failing.  `class` and `ttl` are unpacked
but unused. -/
def parse_record (response : List Nat) (start_index : Nat) :
    DNSRecord × Nat :=
  match decode_dns_name response start_index with
  | none => (sentinel_record, start_index)
  | some (name, position) =>
    if response.length < position + 10 then (sentinel_record, start_index)
    else
      let rtype := get16 response position
      let rdlength := get16 response (position + 8)
      let rdata_start := position + 10
      let rdata_end := rdata_start + rdlength
      if rtype = DNSRecordType.A.code then
        if (py_slice response rdata_start rdata_end).length = 4 then
          (⟨name, .A, .ints (py_slice response rdata_start rdata_end)⟩,
            rdata_end)
        else (sentinel_record, start_index)
      else if rtype = DNSRecordType.NS.code then
        match decode_dns_name response rdata_start with
        | none => (sentinel_record, start_index)
        | some (ns_name, _) => (⟨name, .NS, .str ns_name⟩, rdata_end)
      else if rtype = DNSRecordType.MX.code then
        if rdata_start + 2 ≤ response.length then
          match decode_dns_name response (rdata_start + 2) with
          | none => (sentinel_record, start_index)
          | some (exchange_name, next_position) =>
            (⟨name, .MX, .str exchange_name⟩, next_position)
        else (sentinel_record, start_index)
      else if rtype = DNSRecordType.SOA.code then
        match decode_dns_name response rdata_start with
        | none => (sentinel_record, start_index)
        | some (mname, offset1) =>
          match decode_dns_name response offset1 with
          | none => (sentinel_record, start_index)
          | some (_, offset2) =>
            if offset2 + 20 ≤ response.length then
              (⟨name, .SOA, .str mname⟩, offset2 + 20)
            else (sentinel_record, start_index)
      else if rtype = DNSRecordType.CNAME.code then
        match decode_dns_name response rdata_start with
        | none => (sentinel_record, start_index)
        | some (cname, _) => (⟨name, .CNAME, .str cname⟩, rdata_end)
      else if rtype = DNSRecordType.AAAA.code then
        (⟨name, .AAAA, .ints (py_slice response rdata_start rdata_end)⟩,
          rdata_start + 16)
      else
        (⟨name, .unknown rtype, .str "Unsupported record type"⟩, rdata_end)

/-- The nested `parse_section` of `parse_response` (`resolver.py`
lines 125-131): parse `count` records starting at `start`, returning the
records in order together with the final cursor. -/
def parse_section (response : List Nat) (start : Nat) :
    Nat → List DNSRecord × Nat
  | 0 => ([], start)
  | count + 1 =>
    let rn := parse_record response start
    let rest := parse_section response rn.2 count
    (rn.1 :: rest.1, rest.2)

/-- `parse_response` (`resolver.py` lines 85-142).  Unpacks the 12-octet
header (raising `struct.error` when the buffer is shorter), drops the reply
on an id mismatch, decodes the question (an undecodable name raises
`MalformedName`, a missing `qtype|qclass` raises `struct.error` — neither is
caught here), then parses `ancount`/`nscount`/`arcount` records with
`parse_record`.  `flags` and `qdcount` are unpacked but never used. -/
def parse_response (response : List Nat) (expected_query_id : Nat) :
    Except PyExc (Option DNSResponse) :=
  if response.length < 12 then .error .structError
  else
    let query_id := get16 response 0
    let ancount := get16 response 6
    let nscount := get16 response 8
    let arcount := get16 response 10
    if query_id ≠ expected_query_id then .ok none
    else
      match decode_dns_name response 12 with
      | none => .error .malformedName
      | some (query_name, question_end) =>
        if response.length < question_end + 4 then .error .structError
        else
          let qtype := get16 response question_end
          let pos0 := question_end + 4
          let sa := parse_section response pos0 ancount
          let sn := parse_section response sa.2 nscount
          let sr := parse_section response sn.2 arcount
          .ok (some ⟨query_name, DNSRecordType.ofNat qtype,
            sa.1, sn.1, sr.1⟩)

/-- `determine_target_type` (`resolver.py` lines 175-186). -/
def determine_target_type (is_mx : Bool) : DNSRecordType :=
  if is_mx then .MX else .A

/-- `find_direct_answer` (`resolver.py` lines 188-203): the first matching
answer's `value_string()`, or nothing. -/
def find_direct_answer (response_records : DNSResponse) (target : String)
    (target_type : DNSRecordType) : Option String :=
  (response_records.get_answer target target_type).map value_string

/-- `handle_cname_record` (`resolver.py` lines 205-220): the canonical name
(as `str(value)`) and whether a CNAME answer for `target` was found. -/
def handle_cname_record (response_records : DNSResponse) (target : String) :
    String × Bool :=
  match response_records.get_answer target .CNAME with
  | some cname_record => (py_str cname_record.value, true)
  | none => (target, false)

/-- The NS owner-values collected from the authority section in order
(`resolver.py` line 241). -/
def ns_values (response_records : DNSResponse) : List DNSValue :=
  (response_records.authorities.filter (fun r => r.type == .NS)).map
    (fun r => r.value)

/-- The inner `for add_record in ... break` loop of `resolve_query`
(`resolver.py` lines 246-249): the first additional record whose owner name
equals the NS value and whose type is `A` (a list-valued NS value compares
unequal to every owner-name string, as in Python). -/
def find_first_A : List DNSRecord → DNSValue → Option DNSRecord
  | [], _ => none
  | r :: rest, ns_server =>
    if (match ns_server with
        | .str s => r.name == s
        | .ints _ => false) && r.type == .A
    then some r
    else find_first_A rest ns_server

/-- The glue-collection loop of `resolve_query` (`resolver.py`
lines 244-249): for each NS value in order, the `value_string()` of the
first matching additional `A` record, skipping NS values with no match. -/
def glue_ips : List DNSValue → List DNSRecord → List String
  | [], _ => []
  | ns :: rest, additional =>
    match find_first_A additional ns with
    | some add_record => value_string add_record :: glue_ips rest additional
    | none => glue_ips rest additional

/-- The no-glue NS loop of `resolve_query` together with its fall-through
(`resolver.py` lines 256-266): walk the NS values in order; for a
string-valued NS name, resolve it from the root servers with an `A` request;
on the first success, return one recursive resolution of the original target
against that single address (whatever it yields); when the list is
exhausted — which also covers an empty NS list — fall back to the root
servers.  `resolveFn` stands for the recursive `resolve` call. -/
def try_ns_servers
    (resolveFn : String → List String → Bool → Except PyExc (Option String))
    (hostname : String) (is_mx : Bool) :
    List DNSValue → Except PyExc (Option String)
  | [] => resolveFn hostname get_root_servers is_mx
  | ns :: rest =>
    match ns with
    | .str ns_server =>
      match resolveFn ns_server get_root_servers false with
      | .error e => .error e
      | .ok (some ns_server_ip) => resolveFn hostname [ns_server_ip] is_mx
      | .ok none => try_ns_servers resolveFn hostname is_mx rest
    | .ints _ => try_ns_servers resolveFn hostname is_mx rest

/-- `resolve_query` (`resolver.py` lines 222-266), with the recursive
`resolve` passed as `resolveFn`: a followed CNAME restarts from the roots;
otherwise a non-empty glue list is used directly; otherwise the NS names are
tried in order with a final root fallback (`try_ns_servers`). -/
def resolve_query
    (resolveFn : String → List String → Bool → Except PyExc (Option String))
    (hostname : String) (is_mx : Bool) (response_records : DNSResponse)
    (cname : Bool) : Except PyExc (Option String) :=
  if cname then resolveFn hostname get_root_servers is_mx
  else
    let ns_servers := ns_values response_records
    let ns_server_ips_ordered := glue_ips ns_servers response_records.additional
    if ns_server_ips_ordered ≠ [] then
      resolveFn hostname ns_server_ips_ordered is_mx
    else try_ns_servers resolveFn hostname is_mx ns_servers

/-- The part of `locate_answer` after the direct-answer test (`resolver.py`
lines 300-310): empty response and negative-existence checks, then the
referral handling. -/
def locate_answer_tail
    (resolveFn : String → List String → Bool → Except PyExc (Option String))
    (target : String) (is_mx : Bool) (response_records : DNSResponse)
    (cname : Bool) : Except PyExc (Option String) :=
  if response_records.authorities = [] ∧ response_records.answers = [] then
    .ok none
  else if (response_records.authorities.any (fun r => r.type == .SOA))
      ∧ response_records.answers = [] then
    .ok none
  else resolve_query resolveFn target is_mx response_records cname

/-- `locate_answer` (`resolver.py` lines 270-310): TLD validation, CNAME
rewrite, direct answer (note Python's `if direct_answer:` also rejects an
empty string), then `locate_answer_tail`. -/
def locate_answer
    (resolveFn : String → List String → Bool → Except PyExc (Option String))
    (hostname : String) (is_mx : Bool) (response_records : DNSResponse) :
    Except PyExc (Option String) :=
  if (effective_tld hostname).isNone then .ok none
  else
    let target_type := determine_target_type is_mx
    let tc := handle_cname_record response_records hostname
    match find_direct_answer response_records tc.1 target_type with
    | some direct_answer =>
      if direct_answer = "" then
        locate_answer_tail resolveFn tc.1 is_mx response_records tc.2
      else .ok (some direct_answer)
    | none => locate_answer_tail resolveFn tc.1 is_mx response_records tc.2

/-- The ambient nondeterminism of a resolution run: the entropy consumed by
`random.randrange` and the datagram transport (`query_servers`), which maps
a query and a server list to an optional reply (`none` models all servers
timing out). -/
structure Env where
  rand : Nat
  transport : List Nat → List String → Option (List Nat)

/-- `resolve` (`resolver.py` lines 314-354), with an explicit `fuel` bound
on the recursion depth: fresh id via `random.randrange(0, 65535)`, query
construction, transport, parse, then `locate_answer` (whose recursive
`resolve` calls consume one unit of fuel).  The source has no step budget;
exhausted fuel models the Python interpreter's `RecursionError`, and an
exception escaping `parse_response` propagates out of `resolve` unchanged. -/
def resolve : Nat → Env → String → List String → Bool →
    Except PyExc (Option String)
  | 0, _, _, _, _ => .error .recursionLimit
  | fuel + 1, env, hostname, servers, is_mx =>
    let query_id := randrange 0 65535 env.rand
    let query := construct_query query_id hostname
      (determine_target_type is_mx)
    match env.transport query servers with
    | none => .ok none
    | some data =>
      match parse_response data query_id with
      | .error e => .error e
      | .ok none => .ok none
      | .ok (some dns_response) =>
        locate_answer (resolve fuel env) hostname is_mx dns_response

/-- A pathological delegation reply: id `0`, `ancount = 0`, `nscount = 1`,
`arcount = 0`, question `a.com`/`A`, and a single authority record of type
`CNAME` — so the classifier finds no direct answer, a non-empty authority
section, no `SOA` and no `NS`, and falls back to the root servers with the
unchanged target. -/
def pathological_reply : List Nat :=
  [0, 0, 0, 0, 0, 1, 0, 0, 0, 1, 0, 0]
    ++ [1, 97, 3, 99, 111, 109, 0, 0, 1, 0, 1]
    ++ [0, 0, 5, 0, 1, 0, 0, 0, 0, 0, 1, 0]

/-- An environment whose transport always answers with
`pathological_reply` (and whose entropy yields query id `0`): every step of
the resolution sends it back to the root servers with the same target. -/
def pathological_env : Env :=
  ⟨0, fun _ _ => some pathological_reply⟩

end DNSResolver

deriving instance DecidableEq for Except

namespace DNSResolver

/-! ## Claims -/

/-- C5 (confirmed): for every byte buffer of at least 12 octets and every
expected identifier, if the big-endian 16-bit value in the first two octets
differs from the expected identifier, `parse_response` returns nothing (the
reply is silently discarded), regardless of the rest of the buffer. -/
theorem parse_response_id_mismatch (b : List Nat) (eid : Nat)
    (hlen : 12 ≤ b.length) (hid : get16 b 0 ≠ eid) :
    parse_response b eid = .ok none := by
  unfold parse_response
  rw [if_neg (by omega), if_pos hid]

/-- Witness for C5: a concrete 12-octet buffer whose leading identifier `0`
differs from the expected identifier `7` parses to nothing. -/
theorem parse_response_id_mismatch_check :
    12 ≤ ([0, 0, 0, 0, 0, 0, 0, 0, 0, 0, 0, 0] : List Nat).length ∧
    get16 [0, 0, 0, 0, 0, 0, 0, 0, 0, 0, 0, 0] 0 ≠ 7 ∧
    parse_response [0, 0, 0, 0, 0, 0, 0, 0, 0, 0, 0, 0] 7 = .ok none :=
  ⟨by decide, by decide,
    parse_response_id_mismatch _ 7 (by decide) (by decide)⟩

/-- The record sections each contribute exactly `count` records
(`parse_record` is total: failures yield the sentinel, not fewer records). -/
theorem parse_section_length (b : List Nat) :
    ∀ (count : Nat) (start : Nat),
      (parse_section b start count).1.length = count := by
  intro count
  induction count with
  | zero => intro start; rfl
  | succ n ih =>
    intro start
    simp only [parse_section, List.length_cons, ih]

/-- C3 (confirmed): whenever `parse_response` returns a parsed response `r`,
the total number of emitted records `|r.answers| + |r.authorities| +
|r.additional|` equals `ancount + nscount + arcount` as declared in the
12-octet header (octet pairs 6-7, 8-9 and 10-11). -/
theorem parse_response_record_counts (b : List Nat) (eid : Nat)
    (r : DNSResponse) (h : parse_response b eid = .ok (some r)) :
    r.answers.length + r.authorities.length + r.additional.length
      = get16 b 6 + get16 b 8 + get16 b 10 := by
  unfold parse_response at h
  split at h
  · exact absurd h (by simp)
  · simp only [ne_eq] at h
    split at h
    · exact absurd h (by simp)
    · split at h
      · exact absurd h (by simp)
      · split at h
        · exact absurd h (by simp)
        · simp only [Except.ok.injEq, Option.some.injEq] at h
          subst h
          simp [parse_section_length]

/-- Witness for C3: a concrete reply with all three counts zero parses to a
response with zero records in each section. -/
theorem parse_response_record_counts_check :
    parse_response [0, 0, 0, 0, 0, 0, 0, 0, 0, 0, 0, 0, 0, 0, 1, 0, 1] 0
      = .ok (some ⟨"", .A, [], [], []⟩) ∧
    (([] : List DNSRecord).length + ([] : List DNSRecord).length
        + ([] : List DNSRecord).length
      = get16 [0, 0, 0, 0, 0, 0, 0, 0, 0, 0, 0, 0, 0, 0, 1, 0, 1] 6
        + get16 [0, 0, 0, 0, 0, 0, 0, 0, 0, 0, 0, 0, 0, 0, 1, 0, 1] 8
        + get16 [0, 0, 0, 0, 0, 0, 0, 0, 0, 0, 0, 0, 0, 0, 1, 0, 1] 10) :=
  ⟨by decide,
    parse_response_record_counts _ 0 ⟨"", .A, [], [], []⟩ (by decide)⟩

/-- Counterexample for C2: on the empty buffer — too short for the 12-octet
header — `parse_response` does not return an optional answer; the
`struct.unpack` of the header raises, and the exception escapes the core
(`resolve` does not catch it either). -/
theorem parse_response_empty_raises :
    parse_response ([] : List Nat) 0 = .error .structError := rfl

/-- C2 as amended (corrected): once the reply is long enough for the
12-octet header, its question name decodes, and the four octets after the
question name are present, `parse_response` returns an optional answer —
failures while decoding the resource records themselves are swallowed into
sentinel records and never raise.  (Unamended, the claim is false: a buffer
too short for the header or question section raises `struct.error` or
`MalformedName` across the boundary, see the counterexample.) -/
theorem parse_response_wellformed_header_no_raise (b : List Nat) (eid : Nat)
    (qn : String) (qe : Nat) (h12 : 12 ≤ b.length)
    (hq : decode_dns_name b 12 = some (qn, qe)) (h4 : qe + 4 ≤ b.length) :
    ∃ r, parse_response b eid = .ok r := by
  unfold parse_response
  rw [if_neg (by omega)]
  by_cases hid : get16 b 0 ≠ eid
  · rw [if_pos hid]; exact ⟨none, rfl⟩
  · rw [if_neg hid]
    simp only [hq]
    rw [if_neg (by omega)]
    exact ⟨_, rfl⟩

/-- Witness for C2's amended claim at a concrete well-formed buffer. -/
theorem parse_response_wellformed_header_no_raise_check :
    decode_dns_name [0, 0, 0, 0, 0, 0, 0, 0, 0, 0, 0, 0, 0, 0, 1, 0, 1] 12
      = some ("", 13) ∧
    ∃ r, parse_response [0, 0, 0, 0, 0, 0, 0, 0, 0, 0, 0, 0, 0, 0, 1, 0, 1] 0
      = .ok r :=
  ⟨by decide,
    parse_response_wellformed_header_no_raise _ 0 "" 13 (by decide)
      (by decide) (by decide)⟩

/-- C6 (code bug): the id is drawn with `random.randrange(0, 65535)`
(`resolver.py` line 334), whose upper bound is exclusive: every outcome is
strictly below 65535, so the id 65535 can never be produced — contradicting
both the claim and the source's own comment ("between 0 and 65535
(i.e. 2^16-1)"). -/
theorem randrange_id_below_65535 : ∀ r : Nat, randrange 0 65535 r < 65535 := by
  intro r
  unfold randrange
  omega

/-- C7 (code bug): a concrete `AAAA` record whose header declares
`rdlength = 0`.  The decoder stores the `rdlength`-octet slice — here the
empty list, not 16 octets — while still returning `rdata_start + 16 = 27`
as the next offset, contradicting the claim (and the source's own
`# 16bytes` comment on the slice, `resolver.py` line 69). -/
theorem parse_record_aaaa_short_rdata :
    parse_record [0, 0, 28, 0, 0, 0, 0, 0, 0, 0, 0] 0
      = (⟨"", .AAAA, .ints []⟩, 27) := rfl

/-- Counterexample for C1: a concrete reply (id 25, `ancount = 1`, question
`a`) whose single answer record is truncated, so `parse_record` fails and
yields the sentinel with the cursor unchanged — yet `parse_response` does
not abort: it returns a parsed response containing the sentinel record
instead of nothing. -/
theorem parse_response_keeps_sentinel :
    parse_record
        [0, 25, 0, 0, 0, 1, 0, 1, 0, 0, 0, 0, 1, 97, 0, 0, 1, 0, 1, 0] 19
      = (sentinel_record, 19) ∧
    parse_response
        [0, 25, 0, 0, 0, 1, 0, 1, 0, 0, 0, 0, 1, 97, 0, 0, 1, 0, 1, 0] 25
      = .ok (some ⟨"a", .A, [sentinel_record], [], []⟩) :=
  ⟨rfl, rfl⟩

/-- When `parse_record` is stuck at `p` (it failed and returned the
sentinel with the cursor unchanged), a section of any count parsed from `p`
is that many copies of the sentinel, with the cursor still at `p`. -/
theorem parse_section_stuck (b : List Nat) (p : Nat) (r : DNSRecord)
    (h : parse_record b p = (r, p)) :
    ∀ count, parse_section b p count = (List.replicate count r, p) := by
  intro count
  induction count with
  | zero => rfl
  | succ n ih =>
    simp only [parse_section, h, ih, List.replicate]

/-- C1 as amended (corrected): when a resource record fails to decode, the
record decoder produces the sentinel `("error", type 0, "Parse error")` and
leaves the cursor unchanged, but `parse_response` does **not** abort: since
the cursor never advances past the failure point, it returns a parsed
response in which every declared record slot from the failure on holds the
sentinel (here stated for a failure at the first record slot).  The claim's
"parse_response yields nothing" is false, see the counterexample. -/
theorem parse_response_sentinel_fill (b : List Nat) (eid : Nat)
    (qn : String) (qe : Nat)
    (h12 : 12 ≤ b.length) (hid : get16 b 0 = eid)
    (hq : decode_dns_name b 12 = some (qn, qe)) (h4 : qe + 4 ≤ b.length)
    (hstuck : parse_record b (qe + 4) = (sentinel_record, qe + 4)) :
    parse_response b eid = .ok (some ⟨qn, .ofNat (get16 b qe),
      List.replicate (get16 b 6) sentinel_record,
      List.replicate (get16 b 8) sentinel_record,
      List.replicate (get16 b 10) sentinel_record⟩) := by
  unfold parse_response
  rw [if_neg (by omega), if_neg (by simp [hid])]
  simp only [hq]
  rw [if_neg (by omega)]
  simp only [parse_section_stuck b (qe + 4) sentinel_record hstuck]

/-- Witness for C1's amended claim at the counterexample reply: `ancount =
1` and a failing first record produce one sentinel answer record. -/
theorem parse_response_sentinel_fill_check :
    decode_dns_name
        [0, 25, 0, 0, 0, 1, 0, 1, 0, 0, 0, 0, 1, 97, 0, 0, 1, 0, 1, 0] 12
      = some ("a", 15) ∧
    parse_response
        [0, 25, 0, 0, 0, 1, 0, 1, 0, 0, 0, 0, 1, 97, 0, 0, 1, 0, 1, 0] 25
      = .ok (some ⟨"a",
          .ofNat (get16
            [0, 25, 0, 0, 0, 1, 0, 1, 0, 0, 0, 0, 1, 97, 0, 0, 1, 0, 1, 0]
            15),
          List.replicate (get16
            [0, 25, 0, 0, 0, 1, 0, 1, 0, 0, 0, 0, 1, 97, 0, 0, 1, 0, 1, 0]
            6) sentinel_record,
          List.replicate (get16
            [0, 25, 0, 0, 0, 1, 0, 1, 0, 0, 0, 0, 1, 97, 0, 0, 1, 0, 1, 0]
            8) sentinel_record,
          List.replicate (get16
            [0, 25, 0, 0, 0, 1, 0, 1, 0, 0, 0, 0, 1, 97, 0, 0, 1, 0, 1, 0]
            10) sentinel_record⟩) :=
  ⟨by decide,
    parse_response_sentinel_fill _ 25 "a" 15 (by decide) (by decide)
      (by decide) (by decide) (by decide)⟩

/-- C4 as amended (corrected): the source maintains **no** step budget; the
recursion of `resolve` is unbounded.  On a pathological delegation in which
every reply sends resolution back to the root servers with the same target,
`resolve` never returns an answer or "nothing": it recurses until the
interpreter's recursion limit raises (modelled here by exhausting every
finite fuel). -/
theorem resolve_no_step_budget : ∀ fuel : Nat,
    resolve fuel pathological_env "a.com" get_root_servers false
      = .error .recursionLimit := by
  intro fuel
  induction fuel with
  | zero => rfl
  | succ n ih => exact ih

set_option maxRecDepth 4000 in
/-- Counterexample for C4: even with 31 recursion steps available — beyond
the claim's example budget of 30 — the pathological delegation neither
terminates with an answer nor returns nothing; the recursion only stops
when the interpreter's recursion limit is hit. -/
theorem resolve_budget_counterexample :
    resolve 31 pathological_env "a.com" get_root_servers false
      = .error .recursionLimit ∧
    resolve 31 pathological_env "a.com" get_root_servers false
      ≠ .ok none := by
  refine ⟨rfl, ?_⟩
  intro h
  rw [show resolve 31 pathological_env "a.com" get_root_servers false
    = .error .recursionLimit from rfl] at h
  exact Except.noConfusion h

/-- The no-glue NS walk commits to the first NS name that resolves: once
some prefix of string-valued NS names has failed to resolve and the next
one resolves to `ip`, the walk returns a single recursive resolution of the
original target against `[ip]`, whatever it yields. -/
theorem try_ns_servers_first_success
    (R : String → List String → Bool → Except PyExc (Option String))
    (hostname : String) (is_mx : Bool) :
    ∀ (l1 : List DNSValue) (n : String) (l2 : List DNSValue) (ip : String),
      (∀ v ∈ l1, ∃ s, v = DNSValue.str s
        ∧ R s get_root_servers false = .ok none) →
      R n get_root_servers false = .ok (some ip) →
      try_ns_servers R hostname is_mx (l1 ++ DNSValue.str n :: l2)
        = R hostname [ip] is_mx := by
  intro l1
  induction l1 with
  | nil =>
    intro n l2 ip _ hok
    simp only [List.nil_append, try_ns_servers, hok]
  | cons v t ih =>
    intro n l2 ip hfail hok
    obtain ⟨s, hv, hs⟩ := hfail v (List.mem_cons_self v t)
    subst hv
    simp only [List.cons_append, try_ns_servers, hs]
    exact ih n l2 ip (fun w hw => hfail w (List.mem_cons_of_mem _ hw)) hok

/-- C10 (confirmed): in the no-glue referral path, `resolve_query` commits
to the first NS name that resolves to an address — it returns the result of
a single recursive resolution of the original target against that one
address (even when that result is nothing); the remaining NS names and the
root-server fallback are never attempted after the first NS name has
resolved. -/
theorem resolve_query_commits_to_first_ns
    (R : String → List String → Bool → Except PyExc (Option String))
    (hostname : String) (is_mx : Bool) (resp : DNSResponse)
    (l1 : List DNSValue) (n : String) (l2 : List DNSValue) (ip : String)
    (hns : ns_values resp = l1 ++ DNSValue.str n :: l2)
    (hglue : glue_ips (ns_values resp) resp.additional = [])
    (hfail : ∀ v ∈ l1, ∃ s, v = DNSValue.str s
      ∧ R s get_root_servers false = .ok none)
    (hok : R n get_root_servers false = .ok (some ip)) :
    resolve_query R hostname is_mx resp false = R hostname [ip] is_mx := by
  unfold resolve_query
  rw [if_neg (by simp)]
  rw [hns] at hglue
  simp only [hns, hglue, ne_eq, not_true_eq_false, if_false]
  exact try_ns_servers_first_success R hostname is_mx l1 n l2 ip hfail hok

/-- Witness for C10: with two NS names and no glue, the first fails to
resolve, the second resolves to `9.9.9.9`, and `resolve_query` returns
exactly the recursive resolution of the target against `["9.9.9.9"]`. -/
theorem resolve_query_commits_to_first_ns_check :
    resolve_query
      (fun h _ _ =>
        if h = "n1.com" then .ok none
        else if h = "n2.com" then .ok (some "9.9.9.9")
        else .ok (some "0.0.0.0"))
      "d.com" false
      ⟨"d.com", .A, [],
        [⟨"d.com", .NS, .str "n1.com"⟩, ⟨"d.com", .NS, .str "n2.com"⟩], []⟩
      false
      = (fun h _ _ =>
          if h = "n1.com" then .ok none
          else if h = "n2.com" then .ok (some "9.9.9.9")
          else .ok (some "0.0.0.0")) "d.com" ["9.9.9.9"] false :=
  resolve_query_commits_to_first_ns _ "d.com" false
    ⟨"d.com", .A, [],
      [⟨"d.com", .NS, .str "n1.com"⟩, ⟨"d.com", .NS, .str "n2.com"⟩], []⟩
    [DNSValue.str "n1.com"] "n2.com" [] "9.9.9.9"
    (by decide) (by decide)
    (by
      intro v hv
      rw [List.mem_singleton] at hv
      exact ⟨"n1.com", hv, rfl⟩)
    rfl

/-- The inner glue scan (`for add_record in additional ... break`) is
`List.find?` of the matching predicate. -/
theorem find_first_A_eq_find? (ns : DNSValue)
    (additional : List DNSRecord) :
    find_first_A additional ns
      = additional.find? (fun r =>
          (match ns with
            | .str s => r.name == s
            | .ints _ => false) && r.type == .A) := by
  induction additional with
  | nil => rfl
  | cons r rest ih =>
    rw [List.find?_cons]
    cases ns with
    | ints l => simpa [find_first_A] using ih
    | str s =>
      cases hp : (r.name == s && r.type == DNSRecordType.A) with
      | true => simp [find_first_A, hp]
      | false => simpa [find_first_A, hp] using ih

/-- C8 (confirmed): for every response handled as a referral, the glue list
is exactly: for each NS owner-value taken from `authorities` in original
order, the `value_string()` (dotted-decimal for an `A` record) of the
*first* `A` record in `additional` whose owner name equals that NS name —
preserving NS order, contributing at most one address per NS entry, and
contributing nothing for NS names with no matching `A` record. -/
theorem glue_ips_first_match_per_ns (resp : DNSResponse) :
    glue_ips (ns_values resp) resp.additional
      = (ns_values resp).filterMap (fun v =>
          (resp.additional.find? (fun r =>
            (match v with
              | .str s => r.name == s
              | .ints _ => false) && r.type == .A)).map value_string) := by
  generalize ns_values resp = l
  induction l with
  | nil => rfl
  | cons v t ih =>
    simp only [glue_ips, find_first_A_eq_find? v resp.additional]
    cases hf : resp.additional.find? (fun r =>
        (match v with
          | .str s => r.name == s
          | .ints _ => false) && r.type == .A) with
    | none => simp [List.filterMap_cons, hf, ih]
    | some rec0 => simp [List.filterMap_cons, hf, ih]

/-- Buffers with equal tails from offset 6 agree at every index ≥ 6. -/
theorem getElem?_agree_of_drop (b1 b2 : List Nat)
    (hdrop : b1.drop 6 = b2.drop 6) (j : Nat) (hj : 6 ≤ j) :
    b1[j]? = b2[j]? := by
  have e1 := List.getElem?_drop b1 6 (j - 6)
  have e2 := List.getElem?_drop b2 6 (j - 6)
  rw [hdrop] at e1
  rw [show 6 + (j - 6) = j from by omega] at e1 e2
  rw [← e1, ← e2]

/-- Buffers with equal tails from offset 6 have equal tails from any
offset ≥ 6. -/
theorem drop_agree_of_drop (b1 b2 : List Nat)
    (hdrop : b1.drop 6 = b2.drop 6) (n : Nat) (hn : 6 ≤ n) :
    b1.drop n = b2.drop n := by
  have e1 := List.drop_drop (n - 6) 6 b1
  have e2 := List.drop_drop (n - 6) 6 b2
  rw [hdrop] at e1
  rw [show 6 + (n - 6) = n from by omega] at e1 e2
  rw [← e1, ← e2]

/-- Python slices starting at offset ≥ 6 agree on buffers with equal
tails from offset 6. -/
theorem py_slice_agree (b1 b2 : List Nat) (hdrop : b1.drop 6 = b2.drop 6)
    (lo hi2 : Nat) (hlo : 6 ≤ lo) :
    py_slice b1 lo hi2 = py_slice b2 lo hi2 := by
  unfold py_slice
  rw [List.drop_take, List.drop_take, drop_agree_of_drop b1 b2 hdrop lo hlo]

/-- `getD` reads at offsets ≥ 6 agree on buffers with equal tails from
offset 6. -/
theorem getD_agree_of_drop (b1 b2 : List Nat)
    (hdrop : b1.drop 6 = b2.drop 6) (j : Nat) (hj : 6 ≤ j) :
    b1.getD j 0 = b2.getD j 0 := by
  rw [List.getD_eq_getElem?_getD, List.getD_eq_getElem?_getD,
    getElem?_agree_of_drop b1 b2 hdrop j hj]

/-- 16-bit reads at offsets ≥ 6 agree on buffers with equal tails from
offset 6. -/
theorem get16_agree (b1 b2 : List Nat) (hdrop : b1.drop 6 = b2.drop 6)
    (k : Nat) (hk : 6 ≤ k) : get16 b1 k = get16 b2 k := by
  unfold get16
  rw [getD_agree_of_drop b1 b2 hdrop k hk,
    getD_agree_of_drop b1 b2 hdrop (k + 1) (by omega)]

/-- The identifier read (octets 0-1) agrees on buffers with equal two-octet
prefixes. -/
theorem get16_zero_agree (b1 b2 : List Nat)
    (htake : b1.take 2 = b2.take 2) : get16 b1 0 = get16 b2 0 := by
  have h0 : b1[0]? = b2[0]? := by
    have h := congrArg (fun l => l[0]?) htake
    simpa [List.getElem?_take] using h
  have h1 : b1[1]? = b2[1]? := by
    have h := congrArg (fun l => l[1]?) htake
    simpa [List.getElem?_take] using h
  unfold get16
  rw [List.getD_eq_getElem?_getD, List.getD_eq_getElem?_getD,
    List.getD_eq_getElem?_getD, List.getD_eq_getElem?_getD, h0, h1]

/-- When every octet from offset 6 on is below 192, no read at an offset
≥ 6 can produce a compression-pointer length octet. -/
theorem noPtr_of_all (b : List Nat)
    (h : (b.drop 6).all (fun v => v < 192) = true) :
    ∀ j v, 6 ≤ j → b[j]? = some v → v < 192 := by
  intro j v hj hv
  have hmem : v ∈ b.drop 6 := by
    apply List.getElem?_mem (n := j - 6)
    rw [List.getElem?_drop, show 6 + (j - 6) = j from by omega]
    exact hv
  simpa using List.all_eq_true.mp h v hmem

/-- Pointer-free name decoding started at an offset ≥ 6 reads only offsets
≥ 6, so it agrees on buffers of the same length with equal tails from
offset 6. -/
theorem nameGo_agree (b1 b2 : List Nat) (hlen : b1.length = b2.length)
    (hdrop : b1.drop 6 = b2.drop 6)
    (hnp : ∀ j v, 6 ≤ j → b1[j]? = some v → v < 192) :
    ∀ fuel i jumps ret acc, 6 ≤ i →
      nameGo b1 fuel i jumps ret acc = nameGo b2 fuel i jumps ret acc := by
  intro fuel
  induction fuel with
  | zero => intro i jumps ret acc _; rfl
  | succ f ih =>
    intro i jumps ret acc hi
    have hb2 : b2[i]? = b1[i]? :=
      (getElem?_agree_of_drop b1 b2 hdrop i hi).symm
    cases hb : b1[i]? with
    | none => simp only [nameGo, hb2, hb]
    | some v =>
      simp only [nameGo, hb2, hb]
      by_cases hv0 : v = 0
      · simp only [if_pos hv0]
      · by_cases hv64 : v < 64
        · simp only [if_neg hv0, if_pos hv64]
          rw [hlen, drop_agree_of_drop b1 b2 hdrop (i + 1) (by omega)]
          by_cases hbound : i + 1 + v ≤ b2.length
          · simp only [if_pos hbound]
            exact ih (i + 1 + v) jumps ret _ (by omega)
          · simp only [if_neg hbound]
        · have hlt : v < 192 := hnp i v hi hb
          simp only [if_neg hv0, if_neg hv64,
            if_neg (by omega : ¬ 192 ≤ v)]

/-- Pointer-free name decoding advances the cursor: a successful decode
started at an offset ≥ 6 (with no pointer seen, `ret = none`) returns a
strictly larger cursor. -/
theorem nameGo_gt (b : List Nat)
    (hnp : ∀ j v, 6 ≤ j → b[j]? = some v → v < 192) :
    ∀ fuel i jumps acc s p, 6 ≤ i →
      nameGo b fuel i jumps none acc = some (s, p) → i < p := by
  intro fuel
  induction fuel with
  | zero =>
    intro i jumps acc s p _ h
    exact absurd h (by simp [nameGo])
  | succ f ih =>
    intro i jumps acc s p hi h
    cases hb : b[i]? with
    | none => simp [nameGo, hb] at h
    | some v =>
      simp only [nameGo, hb] at h
      by_cases hv0 : v = 0
      · rw [if_pos hv0] at h
        simp only [Option.getD_none, Option.some.injEq, Prod.mk.injEq] at h
        omega
      · by_cases hv64 : v < 64
        · rw [if_neg hv0, if_pos hv64] at h
          by_cases hbound : i + 1 + v ≤ b.length
          · rw [if_pos hbound] at h
            have := ih (i + 1 + v) jumps _ s p (by omega) h
            omega
          · rw [if_neg hbound] at h; exact absurd h (by simp)
        · have hlt : v < 192 := hnp i v hi hb
          rw [if_neg hv0, if_neg hv64,
            if_neg (by omega : ¬ 192 ≤ v)] at h
          exact absurd h (by simp)

/-- `decode_dns_name` agrees at offsets ≥ 6 on buffers of the same length
with equal, pointer-free tails from offset 6. -/
theorem decode_dns_name_agree (b1 b2 : List Nat)
    (hlen : b1.length = b2.length) (hdrop : b1.drop 6 = b2.drop 6)
    (hnp : ∀ j v, 6 ≤ j → b1[j]? = some v → v < 192)
    (i : Nat) (hi : 6 ≤ i) :
    decode_dns_name b1 i = decode_dns_name b2 i := by
  unfold decode_dns_name
  rw [hlen]
  exact nameGo_agree b1 b2 hlen hdrop hnp _ i 128 none [] hi

/-- `decode_dns_name` advances the cursor on pointer-free buffers. -/
theorem decode_dns_name_gt (b : List Nat)
    (hnp : ∀ j v, 6 ≤ j → b[j]? = some v → v < 192)
    (i : Nat) (s : String) (p : Nat) (hi : 6 ≤ i)
    (h : decode_dns_name b i = some (s, p)) : i < p :=
  nameGo_gt b hnp _ i 128 [] s p hi h

/-- `parse_record` at an offset ≥ 6 reads only offsets ≥ 6 on a
pointer-free buffer, so it agrees on buffers of the same length with
equal tails from offset 6. -/
theorem parse_record_agree (b1 b2 : List Nat)
    (hlen : b1.length = b2.length) (hdrop : b1.drop 6 = b2.drop 6)
    (hnp : ∀ j v, 6 ≤ j → b1[j]? = some v → v < 192)
    (i : Nat) (hi : 6 ≤ i) : parse_record b1 i = parse_record b2 i := by
  have hag := getElem?_agree_of_drop b1 b2 hdrop
  have hnp2 : ∀ j v, 6 ≤ j → b2[j]? = some v → v < 192 := by
    intro j v hj hv
    exact hnp j v hj (by rw [hag j hj]; exact hv)
  have hg := get16_agree b1 b2 hdrop
  have hdeca := decode_dns_name_agree b1 b2 hlen hdrop hnp
  have hsl := py_slice_agree b1 b2 hdrop
  unfold parse_record
  rw [hdeca i hi]
  cases hdec2 : decode_dns_name b2 i with
  | none => rfl
  | some np =>
    obtain ⟨name, position⟩ := np
    have hpos : i < position :=
      decode_dns_name_gt b2 hnp2 i name position hi hdec2
    dsimp only
    rw [hlen, hg position (by omega), hg (position + 8) (by omega)]
    by_cases hl10 : b2.length < position + 10
    · simp only [if_pos hl10]
    · simp only [if_neg hl10]
      by_cases h1 : get16 b2 position = DNSRecordType.A.code
      · simp only [if_pos h1]
        rw [hsl (position + 10) (position + 10 + get16 b2 (position + 8))
          (by omega)]
      · simp only [if_neg h1]
        by_cases h2 : get16 b2 position = DNSRecordType.NS.code
        · simp only [if_pos h2]
          rw [hdeca (position + 10) (by omega)]
        · simp only [if_neg h2]
          by_cases h3 : get16 b2 position = DNSRecordType.MX.code
          · simp only [if_pos h3]
            rw [hdeca (position + 10 + 2) (by omega)]
          · simp only [if_neg h3]
            by_cases h4 : get16 b2 position = DNSRecordType.SOA.code
            · simp only [if_pos h4]
              rw [hdeca (position + 10) (by omega)]
              cases hd5 : decode_dns_name b2 (position + 10) with
              | none => rfl
              | some mp =>
                obtain ⟨mname, offset1⟩ := mp
                have hoff : position + 10 < offset1 :=
                  decode_dns_name_gt b2 hnp2 (position + 10) mname offset1
                    (by omega) hd5
                dsimp only
                rw [hdeca offset1 (by omega)]
            · simp only [if_neg h4]
              by_cases h5 : get16 b2 position = DNSRecordType.CNAME.code
              · simp only [if_pos h5]
                rw [hdeca (position + 10) (by omega)]
              · simp only [if_neg h5]
                by_cases h6 : get16 b2 position = DNSRecordType.AAAA.code
                · simp only [if_pos h6]
                  rw [hsl (position + 10)
                    (position + 10 + get16 b2 (position + 8)) (by omega)]
                · simp only [if_neg h6]

/-- On a pointer-free buffer, `parse_record` started at an offset ≥ 6
returns a next offset ≥ 6 (the sentinel leaves the cursor in place, every
other branch moves it past the owner name). -/
theorem parse_record_pos_ge (b : List Nat)
    (hnp : ∀ j v, 6 ≤ j → b[j]? = some v → v < 192)
    (i : Nat) (hi : 6 ≤ i) : 6 ≤ (parse_record b i).2 := by
  unfold parse_record
  cases hdec : decode_dns_name b i with
  | none => exact hi
  | some np =>
    obtain ⟨name, position⟩ := np
    have hpos : i < position := decode_dns_name_gt b hnp i name position hi hdec
    dsimp only
    by_cases hl10 : b.length < position + 10
    · simp only [if_pos hl10]; exact hi
    · simp only [if_neg hl10]
      by_cases h1 : get16 b position = DNSRecordType.A.code
      · simp only [if_pos h1]
        by_cases hs4 :
            (py_slice b (position + 10)
              (position + 10 + get16 b (position + 8))).length = 4
        · simp only [if_pos hs4]; omega
        · simp only [if_neg hs4]; exact hi
      · simp only [if_neg h1]
        by_cases h2 : get16 b position = DNSRecordType.NS.code
        · simp only [if_pos h2]
          cases hd : decode_dns_name b (position + 10) with
          | none => exact hi
          | some _ => dsimp only; omega
        · simp only [if_neg h2]
          by_cases h3 : get16 b position = DNSRecordType.MX.code
          · simp only [if_pos h3]
            by_cases hb2 : position + 10 + 2 ≤ b.length
            · simp only [if_pos hb2]
              cases hd : decode_dns_name b (position + 10 + 2) with
              | none => exact hi
              | some ep =>
                obtain ⟨exchange_name, next_position⟩ := ep
                have : position + 10 + 2 < next_position :=
                  decode_dns_name_gt b hnp (position + 10 + 2)
                    exchange_name next_position (by omega) hd
                dsimp only
                omega
            · simp only [if_neg hb2]; exact hi
          · simp only [if_neg h3]
            by_cases h4 : get16 b position = DNSRecordType.SOA.code
            · simp only [if_pos h4]
              cases hd5 : decode_dns_name b (position + 10) with
              | none => exact hi
              | some mp =>
                obtain ⟨mname, offset1⟩ := mp
                dsimp only
                cases hd6 : decode_dns_name b offset1 with
                | none => exact hi
                | some rp =>
                  obtain ⟨rname, offset2⟩ := rp
                  dsimp only
                  by_cases h20 : offset2 + 20 ≤ b.length
                  · simp only [if_pos h20]; omega
                  · simp only [if_neg h20]; exact hi
            · simp only [if_neg h4]
              by_cases h5 : get16 b position = DNSRecordType.CNAME.code
              · simp only [if_pos h5]
                cases hd : decode_dns_name b (position + 10) with
                | none => exact hi
                | some _ => dsimp only; omega
              · simp only [if_neg h5]
                by_cases h6 : get16 b position = DNSRecordType.AAAA.code
                · simp only [if_pos h6]; omega
                · simp only [if_neg h6]; omega

/-- Record sections parsed from an offset ≥ 6 agree on same-length buffers
with equal pointer-free tails from offset 6. -/
theorem parse_section_agree (b1 b2 : List Nat)
    (hlen : b1.length = b2.length) (hdrop : b1.drop 6 = b2.drop 6)
    (hnp : ∀ j v, 6 ≤ j → b1[j]? = some v → v < 192) :
    ∀ count i, 6 ≤ i →
      parse_section b1 i count = parse_section b2 i count := by
  have hnp2 : ∀ j v, 6 ≤ j → b2[j]? = some v → v < 192 := by
    intro j v hj hv
    exact hnp j v hj
      (by rw [getElem?_agree_of_drop b1 b2 hdrop j hj]; exact hv)
  intro count
  induction count with
  | zero => intro i _; rfl
  | succ c ih =>
    intro i hi
    have hr := parse_record_agree b1 b2 hlen hdrop hnp i hi
    have hge : 6 ≤ (parse_record b2 i).2 := parse_record_pos_ge b2 hnp2 i hi
    simp only [parse_section, hr, ih (parse_record b2 i).2 hge]

/-- Record sections parsed from an offset ≥ 6 end at an offset ≥ 6 on a
pointer-free buffer. -/
theorem parse_section_pos_ge (b : List Nat)
    (hnp : ∀ j v, 6 ≤ j → b[j]? = some v → v < 192) :
    ∀ count start, 6 ≤ start → 6 ≤ (parse_section b start count).2 := by
  intro count
  induction count with
  | zero => intro start hs; exact hs
  | succ c ih =>
    intro start hs
    simp only [parse_section]
    exact ih (parse_record b start).2 (parse_record_pos_ge b hnp start hs)

/-- Counterexample for C9: two equal-length buffers that are identical
outside octets 2-5 (equal two-octet prefixes and equal tails from octet 6)
whose parses differ: the question name is a compression pointer targeting
offset 2, so the flags octets are read as name data. -/
theorem parse_response_reads_flags_via_pointer :
    ([0, 25, 0, 0, 0, 0, 0, 0, 0, 0, 0, 0, 192, 2, 0, 1, 0, 1] :
        List Nat).take 2
      = ([0, 25, 1, 97, 0, 0, 0, 0, 0, 0, 0, 0, 192, 2, 0, 1, 0, 1] :
        List Nat).take 2 ∧
    ([0, 25, 0, 0, 0, 0, 0, 0, 0, 0, 0, 0, 192, 2, 0, 1, 0, 1] :
        List Nat).drop 6
      = ([0, 25, 1, 97, 0, 0, 0, 0, 0, 0, 0, 0, 192, 2, 0, 1, 0, 1] :
        List Nat).drop 6 ∧
    parse_response
        [0, 25, 0, 0, 0, 0, 0, 0, 0, 0, 0, 0, 192, 2, 0, 1, 0, 1] 25
      ≠ parse_response
        [0, 25, 1, 97, 0, 0, 0, 0, 0, 0, 0, 0, 192, 2, 0, 1, 0, 1] 25 := by
  refine ⟨rfl, rfl, ?_⟩
  intro h
  rw [show parse_response
      [0, 25, 0, 0, 0, 0, 0, 0, 0, 0, 0, 0, 192, 2, 0, 1, 0, 1] 25
    = .ok (some ⟨"", .A, [], [], []⟩) from rfl] at h
  rw [show parse_response
      [0, 25, 1, 97, 0, 0, 0, 0, 0, 0, 0, 0, 192, 2, 0, 1, 0, 1] 25
    = .ok (some ⟨"a", .A, [], [], []⟩) from rfl] at h
  simp at h

/-- C9 as amended (corrected): `parse_response` never uses the `flags` and
`qdcount` values it unpacks, so two equal-length buffers identical outside
octets 2-5 parse identically **provided** the message is pointer-free
(every octet from offset 6 on is below 192, so no compression pointer is
ever followed); without that proviso the claim fails, because a name
pointer may target octets 2-5 and read them as name data (see the
counterexample). -/
theorem parse_response_ignores_flags_qdcount (b1 b2 : List Nat) (eid : Nat)
    (hlen : b1.length = b2.length) (htake : b1.take 2 = b2.take 2)
    (hdrop : b1.drop 6 = b2.drop 6)
    (hall : (b1.drop 6).all (fun v => v < 192) = true) :
    parse_response b1 eid = parse_response b2 eid := by
  have hnp := noPtr_of_all b1 hall
  have hnp2 : ∀ j v, 6 ≤ j → b2[j]? = some v → v < 192 := by
    intro j v hj hv
    exact hnp j v hj
      (by rw [getElem?_agree_of_drop b1 b2 hdrop j hj]; exact hv)
  have hg := get16_agree b1 b2 hdrop
  have hdeca := decode_dns_name_agree b1 b2 hlen hdrop hnp
  unfold parse_response
  rw [hlen, get16_zero_agree b1 b2 htake, hg 6 (by omega), hg 8 (by omega),
    hg 10 (by omega)]
  by_cases hl : b2.length < 12
  · simp only [if_pos hl]
  · simp only [if_neg hl]
    by_cases hid : get16 b2 0 ≠ eid
    · simp only [if_pos hid]
    · simp only [if_neg hid]
      rw [hdeca 12 (by omega)]
      cases hq : decode_dns_name b2 12 with
      | none => rfl
      | some qp =>
        obtain ⟨qn, qe⟩ := qp
        have hqe : 12 < qe := decode_dns_name_gt b2 hnp2 12 qn qe
          (by omega) hq
        dsimp only
        rw [hg qe (by omega)]
        rw [parse_section_agree b1 b2 hlen hdrop hnp (get16 b2 6) (qe + 4)
          (by omega)]
        rw [parse_section_agree b1 b2 hlen hdrop hnp (get16 b2 8)
          (parse_section b2 (qe + 4) (get16 b2 6)).2
          (parse_section_pos_ge b2 hnp2 (get16 b2 6) (qe + 4) (by omega))]
        rw [parse_section_agree b1 b2 hlen hdrop hnp (get16 b2 10)
          (parse_section b2 (parse_section b2 (qe + 4) (get16 b2 6)).2
            (get16 b2 8)).2
          (parse_section_pos_ge b2 hnp2 (get16 b2 8)
            (parse_section b2 (qe + 4) (get16 b2 6)).2
            (parse_section_pos_ge b2 hnp2 (get16 b2 6) (qe + 4)
              (by omega)))]

/-- Witness for C9's amended claim: a pointer-free reply parses identically
when its `flags`/`qdcount` octets are overwritten with `7`s. -/
theorem parse_response_ignores_flags_qdcount_check :
    parse_response [0, 0, 0, 0, 0, 0, 0, 0, 0, 0, 0, 0, 0, 0, 1, 0, 1] 0
      = parse_response [0, 0, 7, 7, 7, 7, 0, 0, 0, 0, 0, 0, 0, 0, 1, 0, 1]
          0 :=
  parse_response_ignores_flags_qdcount _ _ 0 (by decide) (by decide)
    (by decide) (by decide)

end DNSResolver
